import Mathlib

/-!
Shallow embedding of the policy enforcement decision engine of the
gitops-kustomz repository, together with theorems settling the claims of
its specification.

Embedded source files:
* `src/pkg/policy/evaluator.go` — enforcement-level resolution
  (`determineEnforcementLevel`), override resolution (`CheckOverrides`),
  evaluation tallies (`Evaluate` / `evaluatePolicyWithConftest`) and the
  final decision (`Enforce`);
* `src/pkg/config/config.go` — `ValidateComplianceConfig`;
* the second `PolicyEvaluator` implementation (unnamed source file,
  `part_013`) — `DetermineEnforcementLevel`, `validateComplianceConfig`
  and the override-token scan inside `LoadAndValidate`.

Modelling conventions:
* `time.Time` values are modelled as `Int` instants; Go `a.Before(b)` is
  `a < b`.
* Go maps `map[string]T` are modelled as association lists
  `List (String × T)`; iteration order is the list order (Go iterates in
  unspecified order, and every property proved here is insensitive to it).
  A `map[string]bool` override set is modelled as its characteristic
  function `String → Bool` (missing key lookup yields `false`).
* The external OPA/conftest check backend is an opaque collaborator; it is
  modelled as a parameter `backend : String → Except String (List String)`
  giving, per policy id, either an invocation error or the list of
  violation messages.
* File-system existence checks (`os.Stat`) are modelled by a parameter
  `statOk : String → Bool`.
-/

namespace Gitops

/-- The four enforcement-level constants of `evaluator.go`
(`POLICY_LEVEL_DISABLED` / `RECOMMEND` / `WARNING` / `BLOCK`). -/
inductive Level where
  | DISABLED
  | RECOMMEND
  | WARNING
  | BLOCK
deriving DecidableEq, Repr

/-- The three policy-status constants of `evaluator.go`
(`POLICY_STATUS_PASS` / `FAIL` / `ERROR`). -/
inductive Status where
  | PASS
  | FAIL
  | ERROR
deriving DecidableEq, Repr

/-- `config.OverrideConfig`. -/
structure OverrideConfig where
  comment : String
deriving DecidableEq, Repr

/-- `config.EnforcementConfig`: the three optional schedule timestamps plus
the override token. -/
structure EnforcementConfig where
  inEffectAfter : Option Int
  isWarningAfter : Option Int
  isBlockingAfter : Option Int
  override : OverrideConfig
deriving DecidableEq, Repr

/-- `config.PolicyConfig`. -/
structure PolicyConfig where
  name : String
  description : String
  type : String
  filePath : String
  enforcement : EnforcementConfig
deriving DecidableEq, Repr

/-- `config.ComplianceConfig`: the policy map, as an association list
id ↦ policy. -/
structure ComplianceConfig where
  policies : List (String × PolicyConfig)
deriving DecidableEq, Repr

/-- `config.Violation`. -/
structure Violation where
  message : String
  resource : String
deriving DecidableEq, Repr

/-- `config.PolicyResult` (the `Error` string field is called `error`). -/
structure PolicyResult where
  policyID : String
  policyName : String
  status : Status
  violations : List Violation
  error : String
  level : Level
  overridden : Bool
deriving DecidableEq, Repr

/-- `config.EvaluationResult`. -/
structure EvaluationResult where
  totalPolicies : Nat
  passedPolicies : Nat
  failedPolicies : Nat
  erroredPolicies : Nat
  policyResults : List PolicyResult
deriving DecidableEq, Repr

/-- `config.EnforcementResult`. -/
structure EnforcementResult where
  shouldBlock : Bool
  shouldWarn : Bool
  summary : String
deriving DecidableEq, Repr

/-- `config.Comment` (the numeric id is irrelevant to every claim). -/
structure Comment where
  body : String
deriving DecidableEq, Repr

/-- Go `ptr != nil && now.Before(*ptr)`. -/
def timeBefore (now : Int) : Option Int → Bool
  | none => false
  | some t => now < t

/-- Go `ptr != nil && !now.Before(*ptr)`. -/
def timeAtOrAfter (now : Int) : Option Int → Bool
  | none => false
  | some t => t ≤ now

/-- `Evaluator.determineEnforcementLevel` (evaluator.go:231-255), with the
evaluation instant `now` made an explicit parameter in place of
`time.Now()`. -/
def determineEnforcementLevel (enforcement : EnforcementConfig) (now : Int) : Level :=
  if timeBefore now enforcement.inEffectAfter then Level.DISABLED
  else if timeAtOrAfter now enforcement.isBlockingAfter then Level.BLOCK
  else if timeAtOrAfter now enforcement.isWarningAfter then Level.WARNING
  else if enforcement.inEffectAfter.isSome then Level.RECOMMEND
  else Level.DISABLED

/-- `PolicyEvaluator.DetermineEnforcementLevel` (second implementation,
unnamed file part_013): four sequential non-exclusive `if` statements over
an initially-`""` (`POLICY_LEVEL_UNKNOWN`) level variable, last assignment
wins.  Returned levels are the string constants of that file, which also
include `"NOT_IN_EFFECT"` and the unknown level `""`. -/
def DetermineEnforcementLevelAlt (enforcement : EnforcementConfig) (now : Int) : String :=
  let lvl := ""
  let lvl := if timeBefore now enforcement.inEffectAfter then "NOT_IN_EFFECT" else lvl
  let lvl := if timeBefore now enforcement.isWarningAfter then "RECOMMEND" else lvl
  let lvl := if timeBefore now enforcement.isBlockingAfter then "WARNING" else lvl
  let lvl := if timeAtOrAfter now enforcement.isBlockingAfter then "BLOCK" else lvl
  lvl

/-- The names of the `Evaluator` levels under the identification
`DISABLED` ≡ `NOT_IN_EFFECT` used when comparing the two resolver
implementations (the first uses the constant `"DISABLED"`, the second
`"NOT_IN_EFFECT"`, for the not-in-effect tier). -/
def levelNameIdentified : Level → String
  | Level.DISABLED => "NOT_IN_EFFECT"
  | Level.RECOMMEND => "RECOMMEND"
  | Level.WARNING => "WARNING"
  | Level.BLOCK => "BLOCK"

/-- Rank of a level in the order
`NOT_IN_EFFECT (DISABLED) < RECOMMEND < WARNING < BLOCK`. -/
def levelRank : Level → Nat
  | Level.DISABLED => 0
  | Level.RECOMMEND => 1
  | Level.WARNING => 2
  | Level.BLOCK => 3

/-- The first schedule-ordering condition of `ValidateComplianceConfig`
(config.go:65-69): both `inEffectAfter` and `isWarningAfter` set with
`isWarningAfter` strictly before `inEffectAfter`. -/
def warnBeforeInEffect (e : EnforcementConfig) : Bool :=
  match e.inEffectAfter, e.isWarningAfter with
  | some a, some w => w < a
  | _, _ => false

/-- The second schedule-ordering condition of `ValidateComplianceConfig`
(config.go:70-74): both `isWarningAfter` and `isBlockingAfter` set with
`isBlockingAfter` strictly before `isWarningAfter`. -/
def blockBeforeWarn (e : EnforcementConfig) : Bool :=
  match e.isWarningAfter, e.isBlockingAfter with
  | some w, some b => b < w
  | _, _ => false

/-- The per-policy body of the validation loop of
`Loader.ValidateComplianceConfig` (config.go:50-75). -/
def validatePolicyConfig (id : String) (policy : PolicyConfig) : Except String Unit :=
  if policy.name = "" then Except.error ("policy " ++ id ++ ": name is required")
  else if policy.type = "" then Except.error ("policy " ++ id ++ ": type is required")
  else if policy.type ≠ "opa" then
    Except.error ("policy " ++ id ++ ": unsupported type (only opa is supported)")
  else if policy.filePath = "" then Except.error ("policy " ++ id ++ ": filePath is required")
  else if warnBeforeInEffect policy.enforcement then
    Except.error ("policy " ++ id ++ ": isWarningAfter cannot be before inEffectAfter")
  else if blockBeforeWarn policy.enforcement then
    Except.error ("policy " ++ id ++ ": isBlockingAfter cannot be before isWarningAfter")
  else Except.ok ()

/-- The validation loop of `Loader.ValidateComplianceConfig`: first failing
policy aborts the whole validation. -/
def validatePolicies : List (String × PolicyConfig) → Except String Unit
  | [] => Except.ok ()
  | (id, policy) :: rest =>
    match validatePolicyConfig id policy with
    | Except.error e => Except.error e
    | Except.ok _ => validatePolicies rest

/-- `Loader.ValidateComplianceConfig` (config.go:45-78). -/
def ValidateComplianceConfig (config : ComplianceConfig) : Except String Unit :=
  if config.policies.isEmpty then Except.error "no policies defined in compliance config"
  else validatePolicies config.policies

/-- Whether a character list occurs at the head of another. -/
def leadMatch : List Char → List Char → Bool
  | [], _ => true
  | _ :: _, [] => false
  | a :: as, b :: bs => a = b && leadMatch as bs

/-- Whether a character list occurs (contiguously) inside another. -/
def occursIn (pat text : List Char) : Bool :=
  match text with
  | [] => pat.isEmpty
  | _ :: rest => leadMatch pat text || occursIn pat rest

/-- Go `strings.Contains(s, sub)`. -/
def goContains (s sub : String) : Bool :=
  occursIn sub.toList s.toList

/-- Go `strings.HasSuffix(s, suf)`. -/
def goHasEnding (s suf : String) : Bool :=
  leadMatch suf.toList.reverse s.toList.reverse

/-- The per-policy body of `Evaluator.CheckOverrides` (evaluator.go:261-273):
a policy with an empty override token is skipped; otherwise the comment
list is scanned (`break` on the first match is `List.any`) and the policy
id is recorded on a match. -/
def checkOverridesStep (comments : List Comment) (overrides : List String)
    (pp : String × PolicyConfig) : List String :=
  if pp.2.enforcement.override.comment = "" then overrides
  else if comments.any (fun c => goContains c.body pp.2.enforcement.override.comment) then
    overrides ++ [pp.1]
  else overrides

/-- `Evaluator.CheckOverrides` (evaluator.go:258-276); the returned
`map[string]bool` is modelled as the list of policy ids mapped to `true`. -/
def CheckOverrides (comments : List Comment) (cfg : ComplianceConfig) : List String :=
  cfg.policies.foldl (checkOverridesStep comments) []

/-- Intermediate state of the loop inside `Evaluator.Enforce`
(evaluator.go:282-303): the two local counters and the two result flags. -/
structure EnforceState where
  blockingCount : Nat
  warningCount : Nat
  shouldBlock : Bool
  shouldWarn : Bool
deriving DecidableEq, Repr

/-- The loop body of `Evaluator.Enforce`: non-`FAIL` results and overridden
results are skipped; a `BLOCK`-level failure bumps the blocking counter and
sets `shouldBlock`; a `WARNING`-level failure bumps the warning counter and
sets `shouldWarn`; other levels fall through the `switch`. -/
def enforceStep (overrides : String → Bool) (st : EnforceState) (pr : PolicyResult) :
    EnforceState :=
  if pr.status ≠ Status.FAIL then st
  else if overrides pr.policyID then st
  else
    match pr.level with
    | Level.BLOCK =>
      { st with blockingCount := st.blockingCount + 1, shouldBlock := true }
    | Level.WARNING =>
      { st with warningCount := st.warningCount + 1, shouldWarn := true }
    | _ => st

/-- `Evaluator.Enforce` (evaluator.go:279-314). -/
def Enforce (result : EvaluationResult) (overrides : String → Bool) : EnforcementResult :=
  let st := result.policyResults.foldl (enforceStep overrides)
    { blockingCount := 0, warningCount := 0, shouldBlock := false, shouldWarn := false }
  { shouldBlock := st.shouldBlock
    shouldWarn := st.shouldWarn
    summary :=
      if 0 < st.blockingCount then toString st.blockingCount ++ " blocking policy failure(s)"
      else if 0 < st.warningCount then toString st.warningCount ++ " warning policy failure(s)"
      else "All checks passed" }

/-- `Evaluator.evaluatePolicyWithConftest` (evaluator.go:143-181), with the
opaque backend invocation (`evaluateResourceWithOPA`) abstracted into the
parameter `backendResult` and the evaluation instant into `now`.  A
`DISABLED` policy returns the initial `PASS` result without consulting the
backend; a backend error yields an `ERROR` result; otherwise the violation
messages are wrapped and a non-empty list makes the status `FAIL`. -/
def evaluatePolicyWithConftest (backendResult : Except String (List String))
    (id : String) (policy : PolicyConfig) (now : Int) : PolicyResult :=
  let base : PolicyResult :=
    { policyID := id
      policyName := policy.name
      status := Status.PASS
      violations := []
      error := ""
      level := determineEnforcementLevel policy.enforcement now
      overridden := false }
  if base.level = Level.DISABLED then base
  else
    match backendResult with
    | Except.error e =>
      { base with status := Status.ERROR, error := "Policy evaluation failed: " ++ e }
    | Except.ok msgs =>
      let withViolations :=
        { base with violations := msgs.map (fun m => { message := m, resource := "manifest" }) }
      if 0 < withViolations.violations.length then
        { withViolations with status := Status.FAIL }
      else withViolations

/-- The tally step of `Evaluator.Evaluate` (evaluator.go:126-137): append
the policy result and bump exactly the counter selected by its status. -/
def tallyResult (acc : EvaluationResult) (pr : PolicyResult) : EvaluationResult :=
  let acc := { acc with policyResults := acc.policyResults ++ [pr] }
  match pr.status with
  | Status.PASS => { acc with passedPolicies := acc.passedPolicies + 1 }
  | Status.FAIL => { acc with failedPolicies := acc.failedPolicies + 1 }
  | Status.ERROR => { acc with erroredPolicies := acc.erroredPolicies + 1 }

/-- `Evaluator.Evaluate` (evaluator.go:93-140), with the temp-file plumbing
elided (it only transports the manifest bytes to the backend) and the
backend abstracted as `backend`. -/
def Evaluate (backend : String → Except String (List String)) (cfg : ComplianceConfig)
    (now : Int) : EvaluationResult :=
  let init : EvaluationResult :=
    { totalPolicies := cfg.policies.length
      passedPolicies := 0
      failedPolicies := 0
      erroredPolicies := 0
      policyResults := [] }
  cfg.policies.foldl
    (fun acc pp => tallyResult acc (evaluatePolicyWithConftest (backend pp.1) pp.1 pp.2 now))
    init

/-- The per-policy body of `PolicyEvaluator.validateComplianceConfig`
(second implementation, part_013): the checks of `validatePolicyConfig`
plus the override-token length bound (`len(comment) > 255`, in UTF-8
bytes). -/
def validatePolicyConfigAlt (id : String) (policy : PolicyConfig) : Except String Unit :=
  if policy.name = "" then Except.error ("policy " ++ id ++ ": name is required")
  else if policy.type = "" then Except.error ("policy " ++ id ++ ": type is required")
  else if policy.type ≠ "opa" then
    Except.error ("policy " ++ id ++ ": unsupported type (only opa is supported)")
  else if policy.filePath = "" then Except.error ("policy " ++ id ++ ": filePath is required")
  else if warnBeforeInEffect policy.enforcement then
    Except.error ("policy " ++ id ++ ": isWarningAfter cannot be before inEffectAfter")
  else if blockBeforeWarn policy.enforcement then
    Except.error ("policy " ++ id ++ ": isBlockingAfter cannot be before isWarningAfter")
  else if policy.enforcement.override.comment ≠ "" ∧
      255 < policy.enforcement.override.comment.utf8ByteSize then
    Except.error ("policy " ++ id ++ ": override comment is too long (max 255 characters)")
  else Except.ok ()

/-- The validation loop of `PolicyEvaluator.validateComplianceConfig`. -/
def validatePoliciesAlt : List (String × PolicyConfig) → Except String Unit
  | [] => Except.ok ()
  | (id, policy) :: rest =>
    match validatePolicyConfigAlt id policy with
    | Except.error e => Except.error e
    | Except.ok _ => validatePoliciesAlt rest

/-- `PolicyEvaluator.validateComplianceConfig` (part_013). -/
def validateComplianceConfigAlt (config : ComplianceConfig) : Except String Unit :=
  if config.policies.isEmpty then Except.error "no policies defined in compliance config"
  else validatePoliciesAlt config.policies

/-- Outcome of a Go function call observed by its caller: `ok` models a nil
error return, `err` a non-nil error, and `panicked` a runtime panic. -/
inductive GoOutcome where
  | ok
  | err (msg : String)
  | panicked (msg : String)
deriving DecidableEq, Repr

/-- The per-policy loop of `PolicyEvaluator.LoadAndValidate` (part_013),
including its two map stores.  `fullPaths` models the `fullPathToPolicy`
map and `overrideCmds` the `overrideCmdToPolicyId` map, each as an
`Option` of an association list in which `none` is a nil Go map: reading a
nil map yields absence, but storing into one panics.  After the three file
checks the loop stores the policy path into `fullPathToPolicy`, then skips
policies with an empty override token, then errors on a token already
recorded, then stores the token into `overrideCmdToPolicyId`. -/
def loadAndValidateLoopGo (statOk : String → Bool) (policiesPath : String) :
    List (String × PolicyConfig) → Option (List (String × String)) →
      Option (List (String × String)) → GoOutcome
  | [], _, _ => GoOutcome.ok
  | (id, policy) :: rest, fullPaths, overrideCmds =>
    if ¬ statOk (policiesPath ++ "/" ++ policy.filePath) then
      GoOutcome.err ("policy " ++ id ++ ": file not found")
    else if ¬ goHasEnding (policiesPath ++ "/" ++ policy.filePath) ".rego" then
      GoOutcome.err ("policy " ++ id ++ ": unsupported file extension (must be .rego)")
    else if ¬ statOk ((policiesPath ++ "/" ++ policy.filePath).dropRight 5 ++ "_test.rego") then
      GoOutcome.err ("policy " ++ id ++ ": test file not found")
    else
      match fullPaths with
      | none => GoOutcome.panicked "assignment to entry in nil map"
      | some fp =>
        if policy.enforcement.override.comment = "" then
          loadAndValidateLoopGo statOk policiesPath rest
            (some ((id, policiesPath ++ "/" ++ policy.filePath) :: fp)) overrideCmds
        else if (overrideCmds.getD []).any
            (fun entry => entry.1 = policy.enforcement.override.comment) then
          GoOutcome.err ("policy " ++ id ++
            ": use another command, this override command already exists")
        else
          match overrideCmds with
          | none => GoOutcome.panicked "assignment to entry in nil map"
          | some oc =>
            loadAndValidateLoopGo statOk policiesPath rest
              (some ((id, policiesPath ++ "/" ++ policy.filePath) :: fp))
              (some ((policy.enforcement.override.comment, id) :: oc))

/-- `PolicyEvaluator.LoadAndValidate` (part_013) as it executes on the
evaluator built by `NewPolicyEvaluator`, whose `EvaluatorData{}` literal
leaves `fullPathToPolicy` and `overrideCmdToPolicyId` nil — and the only
caller constructs the evaluator through `NewPolicyEvaluator`.  After the
YAML document has been parsed into `config`: structural validation, then
the per-policy loop started with both maps nil. -/
def LoadAndValidateGo (statOk : String → Bool) (policiesPath : String)
    (config : ComplianceConfig) : GoOutcome :=
  match validateComplianceConfigAlt config with
  | Except.error e => GoOutcome.err e
  | Except.ok _ => loadAndValidateLoopGo statOk policiesPath config.policies none none


/-! ## Lemmas about the `Enforce` loop -/

lemma foldl_enforceStep_shouldBlock (ov : String → Bool) :
    ∀ (rs : List PolicyResult) (st : EnforceState),
      ((rs.foldl (enforceStep ov) st).shouldBlock = true ↔
        st.shouldBlock = true ∨ ∃ pr ∈ rs,
          pr.status = Status.FAIL ∧ ov pr.policyID = false ∧ pr.level = Level.BLOCK) := by
  intro rs
  induction rs with
  | nil => intro st; simp
  | cons pr rest ih =>
    intro st
    rw [List.foldl_cons, ih]
    unfold enforceStep
    by_cases h1 : pr.status = Status.FAIL
    · by_cases h2 : ov pr.policyID
      · simp only [h1, h2]
        simp [h1, h2]
      · cases h3 : pr.level <;> simp [h1, h2, h3]
    · simp [h1]

lemma foldl_enforceStep_shouldWarn (ov : String → Bool) :
    ∀ (rs : List PolicyResult) (st : EnforceState),
      ((rs.foldl (enforceStep ov) st).shouldWarn = true ↔
        st.shouldWarn = true ∨ ∃ pr ∈ rs,
          pr.status = Status.FAIL ∧ ov pr.policyID = false ∧ pr.level = Level.WARNING) := by
  intro rs
  induction rs with
  | nil => intro st; simp
  | cons pr rest ih =>
    intro st
    rw [List.foldl_cons, ih]
    unfold enforceStep
    by_cases h1 : pr.status = Status.FAIL
    · by_cases h2 : ov pr.policyID
      · simp [h1, h2]
      · cases h3 : pr.level <;> simp [h1, h2, h3]
    · simp [h1]

/-- **C1, counterexample.**  The claim states that `shouldWarn` is true only
when `shouldBlock` is false.  On an evaluation result holding one
non-overridden `BLOCK`-level failure and one non-overridden `WARNING`-level
failure, `Enforce` returns `shouldBlock = true` and `shouldWarn = true`
simultaneously: the `WARNING` arm of the loop sets `shouldWarn` without
consulting the blocking state. -/
theorem enforce_warn_and_block_counterexample :
    letI r : EvaluationResult :=
      { totalPolicies := 2, passedPolicies := 0, failedPolicies := 2, erroredPolicies := 0,
        policyResults :=
          [{ policyID := "pb", policyName := "pb", status := Status.FAIL, violations := [],
             error := "", level := Level.BLOCK, overridden := false },
           { policyID := "pw", policyName := "pw", status := Status.FAIL, violations := [],
             error := "", level := Level.WARNING, overridden := false }] }
    (Enforce r (fun _ => false)).shouldBlock = true ∧
      (Enforce r (fun _ => false)).shouldWarn = true := by
  exact ⟨rfl, rfl⟩

/-- **C1, amended.**  For every evaluation result and every override set,
`Enforce` returns `shouldBlock = true` iff some policy result is a
non-overridden `FAIL` at `BLOCK` level, and `shouldWarn = true` iff some
policy result is a non-overridden `FAIL` at `WARNING` level — the latter
regardless of whether `shouldBlock` is also true.  When neither kind of
failure exists, both flags are false (immediate from the two iffs). -/
theorem enforce_flags_characterization (result : EvaluationResult) (ov : String → Bool) :
    ((Enforce result ov).shouldBlock = true ↔
      ∃ pr ∈ result.policyResults,
        pr.status = Status.FAIL ∧ ov pr.policyID = false ∧ pr.level = Level.BLOCK) ∧
    ((Enforce result ov).shouldWarn = true ↔
      ∃ pr ∈ result.policyResults,
        pr.status = Status.FAIL ∧ ov pr.policyID = false ∧ pr.level = Level.WARNING) := by
  constructor
  · show (List.foldl (enforceStep ov) _ _).shouldBlock = true ↔ _
    rw [foldl_enforceStep_shouldBlock]
    simp
  · show (List.foldl (enforceStep ov) _ _).shouldWarn = true ↔ _
    rw [foldl_enforceStep_shouldWarn]
    simp

/-- **C2, counterexample.**  The claim states that an unset `inEffectAfter`
forces the resolver to return `NOT_IN_EFFECT` (`DISABLED`) regardless of the
other timestamps.  With `inEffectAfter` unset and `isBlockingAfter = 0`
already passed at `now = 5`, `determineEnforcementLevel` returns `BLOCK`,
not `DISABLED`: the blocking check runs before the nil `inEffectAfter`
fallback. -/
theorem determine_level_unset_counterexample :
    determineEnforcementLevel
        { inEffectAfter := none, isWarningAfter := none, isBlockingAfter := some 0,
          override := { comment := "" } } 5 = Level.BLOCK ∧
      determineEnforcementLevel
        { inEffectAfter := none, isWarningAfter := none, isBlockingAfter := some 0,
          override := { comment := "" } } 5 ≠ Level.DISABLED := by
  exact ⟨rfl, by decide⟩

/-- **C2, amended.**  `determineEnforcementLevel` returns `DISABLED` iff
either `now` is strictly before a set `inEffectAfter` (regardless of the
other two timestamps), or `inEffectAfter` is unset and neither the blocking
nor the warning threshold has been reached; an unset `inEffectAfter` alone
does not force `DISABLED`. -/
theorem determine_level_disabled_iff (e : EnforcementConfig) (now : Int) :
    determineEnforcementLevel e now = Level.DISABLED ↔
      (timeBefore now e.inEffectAfter = true ∨
        (e.inEffectAfter = none ∧ timeAtOrAfter now e.isBlockingAfter = false ∧
          timeAtOrAfter now e.isWarningAfter = false)) := by
  obtain ⟨ie, wa, ba, ov⟩ := e
  cases ie <;> cases wa <;> cases ba <;>
    simp [determineEnforcementLevel, timeBefore, timeAtOrAfter] <;>
    split_ifs <;> simp_all

/-- **C4.**  For every schedule passing the load-time ordering checks of
`ValidateComplianceConfig` (no set `isWarningAfter` before a set
`inEffectAfter`, no set `isBlockingAfter` before a set `isWarningAfter`),
`determineEnforcementLevel` is monotone non-decreasing in time under the
order `DISABLED < RECOMMEND < WARNING < BLOCK`; totality over all instants
is immediate since the resolver is a function on `Int`.  In particular the
level at any instant at or past `blockingAfter` is never above the level at
a later instant. -/
theorem determine_level_monotone (e : EnforcementConfig)
    (h1 : warnBeforeInEffect e = false) (h2 : blockBeforeWarn e = false)
    (t1 t2 : Int) (hle : t1 ≤ t2) :
    levelRank (determineEnforcementLevel e t1) ≤ levelRank (determineEnforcementLevel e t2) := by
  obtain ⟨ie, wa, ba, ov⟩ := e
  cases ie <;> cases wa <;> cases ba <;>
    simp [determineEnforcementLevel, timeBefore, timeAtOrAfter] <;>
    split_ifs <;> simp [levelRank] <;> omega

/-- Witness for `determine_level_monotone`: the scenario-A style schedule
(in effect at 1, warning at 5, blocking at 10) satisfies the load-time
ordering checks, and the level resolved at instant 0 is at most the level
resolved at instant 20. -/
theorem determine_level_monotone_witness :
    letI e : EnforcementConfig :=
      { inEffectAfter := some 1, isWarningAfter := some 5, isBlockingAfter := some 10,
        override := { comment := "" } }
    warnBeforeInEffect e = false ∧ blockBeforeWarn e = false ∧ (0 : Int) ≤ 20 ∧
      levelRank (determineEnforcementLevel e 0) ≤ levelRank (determineEnforcementLevel e 20) :=
  ⟨by decide, by decide, by decide,
    determine_level_monotone _ (by decide) (by decide) 0 20 (by decide)⟩

/-! ## Lemmas about the `Evaluate` tally loop -/

lemma foldl_tally_counts (g : String × PolicyConfig → PolicyResult) :
    ∀ (l : List (String × PolicyConfig)) (acc : EvaluationResult),
      (l.foldl (fun a pp => tallyResult a (g pp)) acc).passedPolicies +
          (l.foldl (fun a pp => tallyResult a (g pp)) acc).failedPolicies +
          (l.foldl (fun a pp => tallyResult a (g pp)) acc).erroredPolicies =
        acc.passedPolicies + acc.failedPolicies + acc.erroredPolicies + l.length ∧
      (l.foldl (fun a pp => tallyResult a (g pp)) acc).policyResults.length =
        acc.policyResults.length + l.length ∧
      (l.foldl (fun a pp => tallyResult a (g pp)) acc).totalPolicies = acc.totalPolicies := by
  intro l
  induction l with
  | nil => intro acc; simp
  | cons p rest ih =>
    intro acc
    simp only [List.foldl_cons, List.length_cons]
    obtain ⟨ih1, ih2, ih3⟩ := ih (tallyResult acc (g p))
    rw [ih1, ih2, ih3]
    cases h : (g p).status <;> simp [tallyResult, h] <;> omega

/-- **C3, counterexample.**  The claim classifies every policy as exactly
one of passed, non-omitted failed, errored, or omitted (overridden failures
plus `NOT_IN_EFFECT` policies), with the four tallies summing to the policy
count.  Running `Evaluate` at instant 0 on a single policy whose schedule
is not yet in effect (`inEffectAfter = 10`), with an empty override set,
the engine records the policy with status `PASS` and counts it in
`passedPolicies`; the same policy also falls under the claim's "omitted"
category (its level is `DISABLED`), so the four tallies sum to 2, not to
the policy count 1: the code keeps no separate omitted tally. -/
theorem evaluate_omitted_counterexample :
    letI cfg : ComplianceConfig :=
      { policies := [("p1",
          { name := "p1", description := "", type := "opa", filePath := "p1.rego",
            enforcement := { inEffectAfter := some 10, isWarningAfter := none,
                             isBlockingAfter := none, override := { comment := "" } } })] }
    letI r := Evaluate (fun _ => Except.ok []) cfg 0
    letI ov : String → Bool := fun _ => false
    r.totalPolicies = 1 ∧ r.passedPolicies = 1 ∧
      r.passedPolicies +
          r.policyResults.countP
            (fun pr => decide (pr.status = Status.FAIL) && !(ov pr.policyID) &&
              decide (pr.level ≠ Level.DISABLED)) +
          r.erroredPolicies +
          r.policyResults.countP
            (fun pr => decide (pr.level = Level.DISABLED) ||
              (decide (pr.status = Status.FAIL) && ov pr.policyID)) = 2 := by
  exact ⟨rfl, rfl, rfl⟩

/-- **C3, amended.**  For every backend behaviour, configuration and
instant, each policy of the set produces exactly one `PolicyResult`, with a
status that is exactly one of `PASS`, `FAIL` or `ERROR`, and the three code
tallies conserve the policy count:
`passedPolicies + failedPolicies + erroredPolicies = totalPolicies`, with
one recorded result per policy.  (Not-in-effect policies are counted as
passed and overridden failures stay in the failed tally; the evaluation
result has no separate omitted tally.) -/
theorem evaluate_tally_conservation (backend : String → Except String (List String))
    (cfg : ComplianceConfig) (now : Int) :
    (Evaluate backend cfg now).passedPolicies + (Evaluate backend cfg now).failedPolicies +
        (Evaluate backend cfg now).erroredPolicies = (Evaluate backend cfg now).totalPolicies ∧
      (Evaluate backend cfg now).policyResults.length =
        (Evaluate backend cfg now).totalPolicies := by
  have e : Evaluate backend cfg now = cfg.policies.foldl
      (fun acc pp => tallyResult acc (evaluatePolicyWithConftest (backend pp.1) pp.1 pp.2 now))
      { totalPolicies := cfg.policies.length, passedPolicies := 0, failedPolicies := 0,
        erroredPolicies := 0, policyResults := [] } := rfl
  obtain ⟨h1, h2, h3⟩ := foldl_tally_counts
    (fun pp => evaluatePolicyWithConftest (backend pp.1) pp.1 pp.2 now) cfg.policies
    { totalPolicies := cfg.policies.length, passedPolicies := 0, failedPolicies := 0,
      erroredPolicies := 0, policyResults := [] }
  rw [e]
  dsimp only at h1 h2 h3
  simp only [List.length_nil] at h1 h2
  omega

/-- **C9.**  A policy result with status `ERROR` never contributes to
`shouldBlock` or `shouldWarn`: deleting it from the evaluation result
leaves the whole `Enforce` output (flags and summary) unchanged, because
the loop skips every non-`FAIL` result.  And in the tally loop of
`Evaluate`, an `ERROR` result increments only the errored tally, leaving
the passed and failed tallies untouched. -/
theorem error_status_never_contributes :
    (∀ (t p f er : Nat) (pre post : List PolicyResult) (prE : PolicyResult)
        (ov : String → Bool), prE.status = Status.ERROR →
      Enforce { totalPolicies := t, passedPolicies := p, failedPolicies := f,
                erroredPolicies := er, policyResults := pre ++ prE :: post } ov =
        Enforce { totalPolicies := t, passedPolicies := p, failedPolicies := f,
                  erroredPolicies := er, policyResults := pre ++ post } ov) ∧
    (∀ (acc : EvaluationResult) (pr : PolicyResult), pr.status = Status.ERROR →
      tallyResult acc pr =
        { acc with policyResults := acc.policyResults ++ [pr],
                   erroredPolicies := acc.erroredPolicies + 1 }) := by
  constructor
  · intro t p f er pre post prE ov h
    have hstep : ∀ st, enforceStep ov st prE = st := by
      intro st
      unfold enforceStep
      simp [h]
    simp only [Enforce, List.foldl_append, List.foldl_cons, hstep]
  · intro acc pr h
    simp [tallyResult, h]

/-- Witness for `error_status_never_contributes`: a concrete `ERROR` result
at `BLOCK` level is removable from `Enforce`'s input without changing the
decision, and tallying it increments only the errored count. -/
theorem error_status_never_contributes_witness :
    letI prE : PolicyResult :=
      { policyID := "pe", policyName := "pe", status := Status.ERROR, violations := [],
        error := "Policy evaluation failed: opa missing", level := Level.BLOCK,
        overridden := false }
    prE.status = Status.ERROR ∧
      Enforce { totalPolicies := 1, passedPolicies := 0, failedPolicies := 0,
                erroredPolicies := 1, policyResults := [] ++ prE :: [] } (fun _ => false) =
        Enforce { totalPolicies := 1, passedPolicies := 0, failedPolicies := 0,
                  erroredPolicies := 1, policyResults := [] ++ [] } (fun _ => false) ∧
      tallyResult { totalPolicies := 1, passedPolicies := 0, failedPolicies := 0,
                    erroredPolicies := 0, policyResults := [] } prE =
        { totalPolicies := 1, passedPolicies := 0, failedPolicies := 0, erroredPolicies := 1,
          policyResults := [prE] } := by
  refine ⟨rfl, error_status_never_contributes.1 1 0 0 1 [] [] _ _ rfl, ?_⟩
  exact error_status_never_contributes.2
    { totalPolicies := 1, passedPolicies := 0, failedPolicies := 0, erroredPolicies := 0,
      policyResults := [] } _ rfl

/-- **C10.**  A policy whose enforcement level resolves to `DISABLED` never
consults the check backend: for every backend outcome whatsoever,
`evaluatePolicyWithConftest` returns the initial result — status `PASS`,
empty violation list, empty error string — and the tally loop counts every
`PASS` result in `passedPolicies` (the evaluation result carries no
separate omitted tally). -/
theorem disabled_policy_counted_passed :
    (∀ (backendResult : Except String (List String)) (id : String) (policy : PolicyConfig)
        (now : Int), determineEnforcementLevel policy.enforcement now = Level.DISABLED →
      evaluatePolicyWithConftest backendResult id policy now =
        { policyID := id, policyName := policy.name, status := Status.PASS, violations := [],
          error := "", level := Level.DISABLED, overridden := false }) ∧
    (∀ (acc : EvaluationResult) (pr : PolicyResult), pr.status = Status.PASS →
      tallyResult acc pr =
        { acc with policyResults := acc.policyResults ++ [pr],
                   passedPolicies := acc.passedPolicies + 1 }) := by
  constructor
  · intro backendResult id policy now h
    unfold evaluatePolicyWithConftest
    simp [h]
  · intro acc pr h
    simp [tallyResult, h]

/-- Witness for `disabled_policy_counted_passed`: a policy in effect only
from instant 10, evaluated at instant 0 against a backend that would fail,
yields the untouched `PASS` result, and tallying that result increments the
passed count. -/
theorem disabled_policy_counted_passed_witness :
    letI policy : PolicyConfig :=
      { name := "hpa", description := "", type := "opa", filePath := "hpa.rego",
        enforcement := { inEffectAfter := some 10, isWarningAfter := none,
                         isBlockingAfter := none, override := { comment := "" } } }
    letI pr : PolicyResult :=
      { policyID := "hpa", policyName := "hpa", status := Status.PASS, violations := [],
        error := "", level := Level.DISABLED, overridden := false }
    determineEnforcementLevel policy.enforcement 0 = Level.DISABLED ∧
      evaluatePolicyWithConftest (Except.error "backend unavailable") "hpa" policy 0 = pr ∧
      tallyResult { totalPolicies := 1, passedPolicies := 0, failedPolicies := 0,
                    erroredPolicies := 0, policyResults := [] } pr =
        { totalPolicies := 1, passedPolicies := 1, failedPolicies := 0, erroredPolicies := 0,
          policyResults := [pr] } := by
  refine ⟨rfl, disabled_policy_counted_passed.1 (Except.error "backend unavailable") "hpa" _ 0 rfl, ?_⟩
  exact disabled_policy_counted_passed.2
    { totalPolicies := 1, passedPolicies := 0, failedPolicies := 0, erroredPolicies := 0,
      policyResults := [] } _ rfl

/-- **C5.**  The two enforcement-level resolver implementations diverge:
with `inEffectAfter` and `isBlockingAfter` unset and `isWarningAfter = 10`,
at instant 5 the `Evaluator` resolver returns `DISABLED` (identified with
`NOT_IN_EFFECT`) while the `PolicyEvaluator` resolver returns
`"RECOMMEND"`, so the two embedded resolvers are not extensionally
equal. -/
theorem resolvers_diverge :
    ∃ (e : EnforcementConfig) (now : Int),
      levelNameIdentified (determineEnforcementLevel e now) ≠
        DetermineEnforcementLevelAlt e now := by
  refine ⟨{ inEffectAfter := none, isWarningAfter := some 10, isBlockingAfter := none,
            override := { comment := "" } }, 5, ?_⟩
  decide

/-! ## Lemmas about `ValidateComplianceConfig` -/

lemma validatePolicyConfig_ok_iff (id : String) (p : PolicyConfig)
    (hname : p.name ≠ "") (htype : p.type = "opa") (hpath : p.filePath ≠ "") :
    validatePolicyConfig id p = Except.ok () ↔
      (warnBeforeInEffect p.enforcement = false ∧ blockBeforeWarn p.enforcement = false) := by
  unfold validatePolicyConfig
  split_ifs <;> simp_all

lemma validatePolicies_ok_iff : ∀ (l : List (String × PolicyConfig)),
    validatePolicies l = Except.ok () ↔
      ∀ p ∈ l, validatePolicyConfig p.1 p.2 = Except.ok () := by
  intro l
  induction l with
  | nil => simp [validatePolicies]
  | cons hd rest ih =>
    obtain ⟨id, pc⟩ := hd
    cases h : validatePolicyConfig id pc with
    | error e => simp [validatePolicies, h]
    | ok u => cases u; simp [validatePolicies, h, ih]

/-- **C6, counterexample.**  The claim states that any two set timestamps
violating `inEffectAfter ≤ warningAfter ≤ blockingAfter` — including a
`blockingAfter` preceding `inEffectAfter` while `warningAfter` is unset —
make validation fail.  For a policy with `inEffectAfter = 10`,
`warningAfter` unset and `blockingAfter = 5`, both outer timestamps are set
and out of order, yet `ValidateComplianceConfig` succeeds: the code only
compares the two adjacent pairs, each of which needs both of its members
set. -/
theorem validate_ordering_counterexample :
    letI cfg : ComplianceConfig :=
      { policies := [("p1",
          { name := "p1", description := "", type := "opa", filePath := "p1.rego",
            enforcement := { inEffectAfter := some 10, isWarningAfter := none,
                             isBlockingAfter := some 5, override := { comment := "" } } })] }
    (∃ p ∈ cfg.policies, ∃ a b, p.2.enforcement.inEffectAfter = some a ∧
        p.2.enforcement.isBlockingAfter = some b ∧ b < a) ∧
      ValidateComplianceConfig cfg = Except.ok () := by
  exact ⟨⟨_, List.Mem.head _, 10, 5, rfl, rfl, by decide⟩, rfl⟩

/-- **C6, amended.**  For configurations whose policies all have the basic
fields valid (non-empty name, type `opa`, non-empty file path), validation
succeeds iff no policy has a set `isWarningAfter` strictly before a set
`inEffectAfter`, nor a set `isBlockingAfter` strictly before a set
`isWarningAfter`; equivalently, validation errors exactly on a violation of
one of these two adjacent-pair orderings.  A `blockingAfter` earlier than
`inEffectAfter` with `warningAfter` unset is not rejected. -/
theorem validate_ordering_characterization (cfg : ComplianceConfig)
    (hne : cfg.policies ≠ [])
    (hfields : ∀ p ∈ cfg.policies, p.2.name ≠ "" ∧ p.2.type = "opa" ∧ p.2.filePath ≠ "") :
    ValidateComplianceConfig cfg = Except.ok () ↔
      ∀ p ∈ cfg.policies,
        warnBeforeInEffect p.2.enforcement = false ∧
          blockBeforeWarn p.2.enforcement = false := by
  unfold ValidateComplianceConfig
  rw [if_neg (by simpa using hne), validatePolicies_ok_iff]
  refine ⟨fun h p hp => ?_, fun h p hp => ?_⟩
  · obtain ⟨h1, h2, h3⟩ := hfields p hp
    exact (validatePolicyConfig_ok_iff p.1 p.2 h1 h2 h3).mp (h p hp)
  · obtain ⟨h1, h2, h3⟩ := hfields p hp
    exact (validatePolicyConfig_ok_iff p.1 p.2 h1 h2 h3).mpr (h p hp)

/-- Witness for `validate_ordering_characterization`: a well-ordered
scenario-A schedule passes validation. -/
theorem validate_ordering_characterization_witness :
    letI cfg : ComplianceConfig :=
      { policies := [("p1",
          { name := "p1", description := "", type := "opa", filePath := "p1.rego",
            enforcement := { inEffectAfter := some 1, isWarningAfter := some 5,
                             isBlockingAfter := some 10, override := { comment := "" } } })] }
    cfg.policies ≠ [] ∧
      (∀ p ∈ cfg.policies, p.2.name ≠ "" ∧ p.2.type = "opa" ∧ p.2.filePath ≠ "") ∧
      ValidateComplianceConfig cfg = Except.ok () := by
  refine ⟨by decide, by decide, ?_⟩
  exact (validate_ordering_characterization _ (by decide) (by decide)).mpr (by decide)

/-! ## Lemmas about `CheckOverrides` -/

lemma foldl_checkOverrides_mem (comments : List Comment) :
    ∀ (l : List (String × PolicyConfig)) (acc : List String) (x : String),
      (x ∈ l.foldl (checkOverridesStep comments) acc ↔
        x ∈ acc ∨ ∃ p : PolicyConfig, (x, p) ∈ l ∧ p.enforcement.override.comment ≠ "" ∧
          comments.any (fun c => goContains c.body p.enforcement.override.comment) = true) := by
  intro l
  induction l with
  | nil => intro acc x; simp
  | cons hd rest ih =>
    intro acc x
    obtain ⟨id, pc⟩ := hd
    rw [List.foldl_cons, ih]
    simp only [checkOverridesStep]
    by_cases h1 : pc.enforcement.override.comment = ""
    · simp only [if_pos h1, List.mem_cons]
      constructor
      · rintro (h | ⟨p, hp, hne, hany⟩)
        · exact Or.inl h
        · exact Or.inr ⟨p, Or.inr hp, hne, hany⟩
      · rintro (h | ⟨p, (heq | hp), hne, hany⟩)
        · exact Or.inl h
        · injection heq with hx hpq
          exact absurd (hpq ▸ h1) hne
        · exact Or.inr ⟨p, hp, hne, hany⟩
    · by_cases h2 :
        comments.any (fun c => goContains c.body pc.enforcement.override.comment) = true
      · simp only [if_neg h1, if_pos h2, List.mem_append, List.mem_cons, List.not_mem_nil,
          or_false]
        constructor
        · rintro ((h | h) | ⟨p, hp, hne, hany⟩)
          · exact Or.inl h
          · exact Or.inr ⟨pc, Or.inl (by rw [h]), h1, h2⟩
          · exact Or.inr ⟨p, Or.inr hp, hne, hany⟩
        · rintro (h | ⟨p, (heq | hp), hne, hany⟩)
          · exact Or.inl (Or.inl h)
          · injection heq with hx hpq
            exact Or.inl (Or.inr hx)
          · exact Or.inr ⟨p, hp, hne, hany⟩
      · simp only [if_neg h1, if_neg h2, List.mem_cons]
        constructor
        · rintro (h | ⟨p, hp, hne, hany⟩)
          · exact Or.inl h
          · exact Or.inr ⟨p, Or.inr hp, hne, hany⟩
        · rintro (h | ⟨p, (heq | hp), hne, hany⟩)
          · exact Or.inl h
          · injection heq with hx hpq
            exact absurd (hpq ▸ hany) (hpq ▸ h2)
          · exact Or.inr ⟨p, hp, hne, hany⟩

/-- **C8.**  `CheckOverrides` returns exactly the set of policy ids whose
configured override token is non-empty and occurs as a substring of at
least one comment body.  In particular a policy with an empty (i.e., no
configured) override token is never in the returned set, whatever the
comments say, and — `CheckOverrides` being a function of exactly the
comment list and the configuration — resolving overrides twice on the same
inputs yields the same set. -/
theorem check_overrides_characterization (comments : List Comment) (cfg : ComplianceConfig)
    (x : String) :
    x ∈ CheckOverrides comments cfg ↔
      ∃ p : PolicyConfig, (x, p) ∈ cfg.policies ∧ p.enforcement.override.comment ≠ "" ∧
        ∃ c ∈ comments, goContains c.body p.enforcement.override.comment = true := by
  unfold CheckOverrides
  rw [foldl_checkOverrides_mem]
  simp [List.any_eq_true]

set_option maxRecDepth 8192 in
/-- **C7 (code bug).**  The claim describes the duplicate-override-token
and the 255-character checks written in the `PolicyEvaluator` loader.  The
length check is reachable and behaves as claimed: an overlong token makes
the load fail with the dedicated length error (third conjunct).  But
`NewPolicyEvaluator` leaves the evaluator's maps nil, and the loop of
`LoadAndValidate` stores into `fullPathToPolicy` before the duplicate
check, so on any policy whose `.rego` and test files exist the real load
panics on a nil-map store: on a configuration with a duplicated token it
panics instead of returning the duplicate-token error (first conjunct),
and on a configuration satisfying both rules it panics instead of loading
successfully (second conjunct) — the duplicate-token error is unreachable
and the load can never return ok for a non-empty configuration with
existing files. -/
theorem load_and_validate_nil_map_panics :
    letI pol : String → String → PolicyConfig := fun fp tok =>
      { name := "n", description := "", type := "opa", filePath := fp,
        enforcement := { inEffectAfter := none, isWarningAfter := none,
                         isBlockingAfter := none, override := { comment := tok } } }
    LoadAndValidateGo (fun _ => true) "policies"
        { policies := [("p1", pol "a.rego" "/ov"), ("p2", pol "b.rego" "/ov")] } =
      GoOutcome.panicked "assignment to entry in nil map" ∧
    LoadAndValidateGo (fun _ => true) "policies"
        { policies := [("p1", pol "a.rego" "/ov1"), ("p2", pol "b.rego" "/ov2")] } =
      GoOutcome.panicked "assignment to entry in nil map" ∧
    LoadAndValidateGo (fun _ => true) "policies"
        { policies := [("p1", pol "a.rego" (String.mk (List.replicate 256 'x')))] } =
      GoOutcome.err ("policy p1: override comment is too long (max 255 characters)") := by
  exact ⟨rfl, rfl, rfl⟩

end Gitops
